import Mathlib

/- Verification of the Chango assistant daemon: persistence traces, the
   snippet/note/task stores, the reminder scheduler, the telemetry ledger,
   the webhook channel and the sentinel alert rate limiter, shallowly
   embedded from the Go sources. -/

/-- Modelled from the spec: the ToolResult variant returned by every tool.
Its Go definition (pkg/tools, with the SilentResult/ErrorResult/MediaResult
constructors) is not among the provided sources; the spec describes it as
`Silent{text} | Media{text, urls} | Error{text}`. -/
inductive ToolResult where
  | silent (text : String)
  | media (text : String) (urls : List String)
  | error (text : String)
  deriving DecidableEq

/-- A file-system operation performed by a persistence routine: the on-disk
effect trace of one save call (the serialized JSON is a parameter, since
marshalling is library code). -/
inductive FsOp where
  | write (path data : String)
  | rename (src dst : String)
  deriving DecidableEq

/-- An operation list replaces `path` atomically when it writes the contents
to a temporary path and then renames that temporary path onto `path`. -/
def isAtomicReplace (ops : List FsOp) (path : String) : Prop :=
  ∃ tmp data, tmp ≠ path ∧ ops = [FsOp.write tmp data, FsOp.rename tmp path]

/-- Workspace-relative path of snippets.json (NewSnippetTool). -/
def snippetsPath : String := "snippets.json"

/-- Workspace-relative path of tasks/tasks.json (NewTasksTool). -/
def tasksPath : String := "tasks/tasks.json"

/-- Workspace-relative path of memory/notes.json (NewMemoryTool). -/
def notesPath : String := "memory/notes.json"

/-- Workspace-relative path of reminders.json (NewReminderTool). -/
def remindersPath : String := "reminders.json"

/-- Workspace-relative path of state/telemetry.json (NewTracker). -/
def telemetryPath : String := "state/telemetry.json"

/-- Workspace-relative path of state/sentinel.json (Service.saveState). -/
def sentinelPath : String := "state/sentinel.json"

/-- SnippetTool.saveSnippets: `os.WriteFile(t.filePath, data, 0644)` — one
direct write of the final path, no temporary file. -/
def saveSnippetsOps (data : String) : List FsOp :=
  [FsOp.write snippetsPath data]

/-- TasksTool.saveTasks: `os.WriteFile(t.filePath, data, 0644)` — one direct
write of the final path, no temporary file. -/
def saveTasksOps (data : String) : List FsOp :=
  [FsOp.write tasksPath data]

/-- MemoryTool.saveNotes and the inline writes in MemoryTool.save/del:
`os.WriteFile(t.filePath, data, 0644)` — one direct write of the final path,
no temporary file. -/
def saveNotesOps (data : String) : List FsOp :=
  [FsOp.write notesPath data]

/-- ReminderTool.saveRemindersLocked: write `filePath + ".tmp"`, then rename
it onto filePath. -/
def saveRemindersOps (data : String) : List FsOp :=
  [FsOp.write (remindersPath ++ ".tmp") data,
   FsOp.rename (remindersPath ++ ".tmp") remindersPath]

/-- Tracker.Flush (success path): write `filePath + ".tmp"`, then rename it
onto filePath. -/
def telemetryFlushOps (data : String) : List FsOp :=
  [FsOp.write (telemetryPath ++ ".tmp") data,
   FsOp.rename (telemetryPath ++ ".tmp") telemetryPath]

/-- Service.saveState (success path): write `filePath + ".tmp"`, then rename
it onto filePath. -/
def sentinelSaveStateOps (data : String) : List FsOp :=
  [FsOp.write (sentinelPath ++ ".tmp") data,
   FsOp.rename (sentinelPath ++ ".tmp") sentinelPath]

/-- Go's `<` on strings, bytewise lexicographic; on UTF-8 text byte order
equals code-point order, so it is the character-list lexicographic order. -/
def ltChars : List Char → List Char → Bool
  | [], [] => false
  | [], _ :: _ => true
  | _ :: _, [] => false
  | c :: cs, d :: ds => if c < d then true else if d < c then false else ltChars cs ds

/-- Go string comparison `a < b`. -/
def goStrLt (a b : String) : Bool := ltChars a.data b.data

/-- Go string comparison `a <= b` (a total order, so the negation of `b < a`). -/
def goStrLe (a b : String) : Bool := !goStrLt b a

/-- A stored snippet (type `snippet` in snippet.go). -/
structure Snippet where
  content : String
  tags : List String
  createdAt : String
  updatedAt : String
  deriving DecidableEq

/-- Lookup in the snippets map, represented as an association list (Go map
keys are unique, so first match is the match). -/
def snLookup : List (String × Snippet) → String → Option Snippet
  | [], _ => none
  | kv :: rest, k => if kv.1 = k then some kv.2 else snLookup rest k

/-- Store into the snippets map: replace the entry for the key, else append. -/
def snStore : List (String × Snippet) → String → Snippet → List (String × Snippet)
  | [], k, v => [(k, v)]
  | kv :: rest, k, v => if kv.1 = k then (k, v) :: rest else kv :: snStore rest k v

/-- Delete from the snippets map (Go `delete(snippets, name)`): drop the
entries for the key. -/
def snErase : List (String × Snippet) → String → List (String × Snippet)
  | [], _ => []
  | kv :: rest, k => if kv.1 = k then snErase rest k else kv :: snErase rest k

/-- SnippetTool.save: timestamps are passed in for `time.Now()`; an existing
entry keeps its CreatedAt, a new one gets `now` for both. -/
def snippetSave (now k v : String) (tags : List String)
    (m : List (String × Snippet)) : ToolResult × List (String × Snippet) :=
  if k = "" ∨ v = "" then (.error "name and content are required for save", m)
  else
    match snLookup m k with
    | some old =>
        (.silent ("Snippet '" ++ k ++ "' updated"),
         snStore m k ⟨v, tags, old.createdAt, now⟩)
    | none =>
        (.silent ("Snippet '" ++ k ++ "' saved"),
         snStore m k ⟨v, tags, now, now⟩)

/-- The text SnippetTool.get prints for a found snippet. -/
def snippetGetText (k : String) (s : Snippet) : String :=
  "Snippet '" ++ k ++ "':\n" ++ s.content ++
    (if s.tags = [] then "" else "\nTags: " ++ String.intercalate ", " s.tags)

/-- SnippetTool.get. -/
def snippetGet (k : String) (m : List (String × Snippet)) : ToolResult :=
  if k = "" then .error "name is required for get"
  else
    match snLookup m k with
    | none => .silent ("No snippet found with name '" ++ k ++ "'")
    | some s => .silent (snippetGetText k s)

/-- SnippetTool.del: a missing key reports not-found as a Silent result and
leaves the map unchanged. -/
def snippetDel (k : String) (m : List (String × Snippet)) :
    ToolResult × List (String × Snippet) :=
  if k = "" then (.error "name is required for delete", m)
  else
    match snLookup m k with
    | none => (.silent ("No snippet found with name '" ++ k ++ "'"), m)
    | some _ => (.silent ("Snippet '" ++ k ++ "' deleted"), snErase m k)

/-- A stored note (type `memoryNote` in the memory tool). -/
structure MemoryNote where
  key : String
  content : String
  tags : List String
  createdAt : String
  updatedAt : String
  deriving DecidableEq

/-- First note with the given key (the Go loops scan the slice in order). -/
def noteFind : List MemoryNote → String → Option MemoryNote
  | [], _ => none
  | n :: rest, k => if n.key = k then some n else noteFind rest k

/-- The in-place update / append-at-end performed by MemoryTool.save: the
first note with the key gets new content, tags and UpdatedAt (CreatedAt is
preserved); when no note matches, a fresh note is appended. -/
def notesSaveList (now k v : String) (tags : List String) :
    List MemoryNote → List MemoryNote
  | [] => [⟨k, v, tags, now, now⟩]
  | n :: rest =>
      if n.key = k then { n with content := v, tags := tags, updatedAt := now } :: rest
      else n :: notesSaveList now k v tags rest

/-- MemoryTool.save. The notes file is `none` when missing (a read error is
ignored there, starting from an empty slice); saving always writes a file. -/
def memorySave (now k v : String) (tags : List String)
    (file : Option (List MemoryNote)) : ToolResult × Option (List MemoryNote) :=
  if k = "" ∨ v = "" then (.error "key and content are required for save", file)
  else
    let notes := file.getD []
    let found := (noteFind notes k).isSome
    ((if found then ToolResult.silent ("Note '" ++ k ++ "' updated")
      else ToolResult.silent ("Note '" ++ k ++ "' saved")),
     some (notesSaveList now k v tags notes))

/-- MemoryTool.recall; loadNotes treats a missing file as an empty slice. -/
def memoryRecall (k : String) (file : Option (List MemoryNote)) : ToolResult :=
  if k = "" then .error "key is required for recall"
  else
    match noteFind (file.getD []) k with
    | some n =>
        .silent ("Key: " ++ n.key ++ "\nContent: " ++ n.content ++
          (if n.tags = [] then "" else "\nTags: " ++ String.intercalate ", " n.tags))
    | none => .silent ("No note found with key '" ++ k ++ "'")

/-- The filtering loop of MemoryTool.del: keep every note whose key differs. -/
def noteErase : List MemoryNote → String → List MemoryNote
  | [], _ => []
  | n :: rest, k => if n.key = k then noteErase rest k else n :: noteErase rest k

/-- MemoryTool.del: a missing file is a read error (Error result); a missing
key reports not-found as a Silent result without rewriting the file; a found
key removes every note with that key (the Go loop keeps the others). -/
def memoryDel (k : String) (file : Option (List MemoryNote)) :
    ToolResult × Option (List MemoryNote) :=
  if k = "" then (.error "key is required for delete", file)
  else
    match file with
    | none => (.error "failed to load notes", none)
    | some notes =>
        if (noteFind notes k).isSome then
          (.silent ("Note '" ++ k ++ "' deleted"), some (noteErase notes k))
        else (.silent ("No note found with key '" ++ k ++ "'"), some notes)

/-- A task (the Go type `Task`; named TaskRec because Lean's own Task is taken). -/
structure TaskRec where
  id : String
  title : String
  description : String
  status : String
  priority : String
  dueDate : String
  tags : List String
  notes : String
  goalId : String
  createdAt : String
  updatedAt : String
  deriving DecidableEq

/-- First task with the given ID (the Go loops scan the slice in order). -/
def taskFind : List TaskRec → String → Option TaskRec
  | [], _ => none
  | t :: rest, i => if t.id = i then some t else taskFind rest i

/-- TasksTool.add for an args map carrying only the title: description,
due_date, notes, goal_id and tags are absent (empty), priority defaults to
"medium", status starts "pending". The random 12-hex ID from generateTaskID
and the `time.Now()` timestamp are passed in. A missing file starts from an
empty slice; the new task is appended at the end. -/
def taskAdd (genId now title : String) (file : Option (List TaskRec)) :
    ToolResult × Option (List TaskRec) :=
  if title = "" then (.error "title is required for add", file)
  else
    let task : TaskRec := ⟨genId, title, "", "pending", "medium", "", [], "", "", now, now⟩
    (.silent ("Task created: " ++ title ++ " (ID: " ++ genId ++ ", priority: medium)"),
     some (file.getD [] ++ [task]))

/-- The lines formatTask prints for a task (the overdue banner compares the
due date with `today` bytewise, as Go compares strings). -/
def formatTask (today : String) (t : TaskRec) : String :=
  String.intercalate "\n"
    (["ID: " ++ t.id, "Title: " ++ t.title, "Status: " ++ t.status,
      "Priority: " ++ t.priority]
     ++ (if t.description = "" then [] else ["Description: " ++ t.description])
     ++ (if t.dueDate = "" then []
         else ["Due Date: " ++ t.dueDate]
           ++ (if goStrLt t.dueDate today = true ∧ t.status ≠ "done" ∧ t.status ≠ "cancelled"
               then ["** OVERDUE **"] else []))
     ++ (if t.tags = [] then [] else ["Tags: " ++ String.intercalate ", " t.tags])
     ++ (if t.notes = "" then [] else ["Notes: " ++ t.notes])
     ++ (if t.goalId = "" then [] else ["Goal ID: " ++ t.goalId])
     ++ ["Created: " ++ t.createdAt, "Updated: " ++ t.updatedAt])

/-- TasksTool.get; loadTasks treats a missing file as an empty slice. -/
def taskGet (today i : String) (file : Option (List TaskRec)) : ToolResult :=
  if i = "" then .error "id is required for get"
  else
    match taskFind (file.getD []) i with
    | some t => .silent (formatTask today t)
    | none => .silent ("No task found with ID '" ++ i ++ "'")

/-- The filtering loop of TasksTool.del: keep every task whose ID differs. -/
def taskErase : List TaskRec → String → List TaskRec
  | [], _ => []
  | t :: rest, i => if t.id = i then taskErase rest i else t :: taskErase rest i

/-- TasksTool.del: reads the file directly, so a missing file is an Error; a
missing ID reports not-found as a Silent result without rewriting the file; a
found ID removes every task with that ID (the Go loop keeps the others). -/
def taskDel (i : String) (file : Option (List TaskRec)) :
    ToolResult × Option (List TaskRec) :=
  if i = "" then (.error "id is required for delete", file)
  else
    match file with
    | none => (.error "failed to load tasks", none)
    | some tasks =>
        if (taskFind tasks i).isSome then
          (.silent ("Task '" ++ i ++ "' deleted"), some (taskErase tasks i))
        else (.silent ("No task found with ID '" ++ i ++ "'"), some tasks)

/-- The active-task filter of TasksTool.list: done and cancelled tasks are
skipped before any line is built. -/
def isActive (t : TaskRec) : Bool :=
  t.status != "done" && t.status != "cancelled"

/-- The overdue test of TasksTool.list: a non-empty due date bytewise below
today, on a task that is neither done nor cancelled. -/
def isOverdue (today : String) (t : TaskRec) : Bool :=
  t.dueDate != "" && goStrLt t.dueDate today &&
    t.status != "done" && t.status != "cancelled"

/-- The " [OVERDUE]" suffix TasksTool.list appends to a task's line (empty
when the task is not overdue). -/
def overdueTag (today : String) (t : TaskRec) : String :=
  if isOverdue today t then " [OVERDUE]" else ""

/-- The per-task line of TasksTool.list before the overdue suffix. -/
def taskLineBase (t : TaskRec) : String :=
  "- [" ++ t.status.toUpper ++ "] " ++ t.title ++ " (ID: " ++ t.id ++
    ", status: " ++ t.status ++ ", priority: " ++ t.priority ++
    (if t.dueDate = "" then "" else ", due: " ++ t.dueDate) ++
    (if t.goalId = "" then "" else ", goal: " ++ t.goalId) ++ ")"

/-- One listing line of TasksTool.list. -/
def taskLine (today : String) (t : TaskRec) : String :=
  taskLineBase t ++ overdueTag today t

/-- The overdue counter accumulated by the TasksTool.list loop. -/
def listOverdueCount (today : String) (tasks : List TaskRec) : Nat :=
  (tasks.filter isActive).countP (isOverdue today)

/-- The header line of TasksTool.list. -/
def listHeader (today : String) (tasks : List TaskRec) : String :=
  toString (tasks.filter isActive).length ++ " active task(s)" ++
    (if listOverdueCount today tasks > 0
     then " (" ++ toString (listOverdueCount today tasks) ++ " overdue)" else "")

/-- TasksTool.list (`today` passed in for `time.Now().Format("2006-01-02")`). -/
def tasksList (today : String) (file : Option (List TaskRec)) : ToolResult :=
  let tasks := file.getD []
  if tasks = [] then .silent "No tasks found"
  else
    let lines := (tasks.filter isActive).map (taskLine today)
    if lines = [] then .silent "No active tasks"
    else .silent (listHeader today tasks ++ ":\n" ++ String.intercalate "\n" lines)

/-- A reminder (type `reminder` in reminder.go). -/
structure Reminder where
  id : String
  message : String
  dueAt : String
  channel : String
  chatId : String
  createdAt : String
  fired : Bool
  deriving DecidableEq

/-- The maxID scan of ReminderTool.StartPendingReminders: the loop skips a
fired reminder with `continue` BEFORE parsing its ID, so only non-fired
reminders feed the maximum. `strconv.Atoi` is modelled by String.toNat?
(reminder IDs are printed with %d from a non-negative counter). -/
def startMaxID : List Reminder → Nat
  | [] => 0
  | r :: rest =>
      let m := startMaxID rest
      if r.fired then m
      else
        match r.id.toNat? with
        | some n => max n m
        | none => m

/-- The in-memory reminder tool state: the ID counter, the context set by
SetContext, and the persisted list. -/
structure ReminderToolState where
  nextID : Nat
  channel : String
  chatId : String
  reminders : List Reminder
  deriving DecidableEq

/-- ReminderTool.StartPendingReminders restricted to its persistent effect:
after the scan, `nextID = maxID + 1`; the file is left as loaded. -/
def startPendingReminders (loaded : List Reminder) (channel chatId : String) :
    ReminderToolState :=
  ⟨startMaxID loaded + 1, channel, chatId, loaded⟩

/-- ReminderTool.set for a valid duration: the fired timer and the formatted
confirmation time are outside this model, `now` and `dueAt` stand for
`time.Now()` and its sum with the parsed duration. The new reminder gets
`fmt.Sprintf("%d", t.nextID)` as ID, is appended to the loaded list, and
the counter is incremented. -/
def reminderSet (now dueAt message : String) (st : ReminderToolState) :
    ToolResult × ReminderToolState :=
  if message = "" then (.error "message and duration are required for set", st)
  else
    let newId := toString st.nextID
    let r : Reminder := ⟨newId, message, dueAt, st.channel, st.chatId, now, false⟩
    (.silent ("Reminder #" ++ newId ++ " set: " ++ message),
     { st with nextID := st.nextID + 1, reminders := st.reminders ++ [r] })

/-- A per-feature token bucket (telemetry FeatureBucket; int64 counters are
modelled as Int — the verified sums are wrap-consistent either way). -/
structure FeatureBucket where
  promptTokens : Int
  completionTokens : Int
  totalTokens : Int
  calls : Int
  deriving DecidableEq

/-- The zero bucket a fresh feature entry starts from. -/
def fbZero : FeatureBucket := ⟨0, 0, 0, 0⟩

/-- One Record hit on a bucket: add the three token counts, bump calls. -/
def fbAdd (fb : FeatureBucket) (p c tot : Int) : FeatureBucket :=
  ⟨fb.promptTokens + p, fb.completionTokens + c, fb.totalTokens + tot, fb.calls + 1⟩

/-- Componentwise sum of two buckets. -/
def fbPlus (a b : FeatureBucket) : FeatureBucket :=
  ⟨a.promptTokens + b.promptTokens, a.completionTokens + b.completionTokens,
   a.totalTokens + b.totalTokens, a.calls + b.calls⟩

/-- A per-day bucket (telemetry DayBucket); the Go feature map is an
association list here, with the unique-key first-match discipline. -/
structure DayBucket where
  date : String
  features : List (String × FeatureBucket)
  totals : FeatureBucket
  deriving DecidableEq

/-- The locate-or-create-then-add step of Tracker.Record on the feature map:
the entry for the feature is bumped in place, a missing feature starts from
the zero bucket (appended, as a fresh Go map key). -/
def bumpFeature (p c tot : Int) (feature : String) :
    List (String × FeatureBucket) → List (String × FeatureBucket)
  | [] => [(feature, fbAdd fbZero p c tot)]
  | kv :: rest =>
      if kv.1 = feature then (kv.1, fbAdd kv.2 p c tot) :: rest
      else kv :: bumpFeature p c tot feature rest

/-- Tracker.Record's effect on one day bucket: bump the feature entry and the
running totals. -/
def bumpDay (feature : String) (p c tot : Int) (d : DayBucket) : DayBucket :=
  { d with features := bumpFeature p c tot feature d.features,
           totals := fbAdd d.totals p c tot }

/-- Tracker.getOrCreateDay followed by the Record adds: the first day with
today's date is bumped; a missing day is appended at the end (days are kept
oldest first). -/
def recordDays (today feature : String) (p c tot : Int) :
    List DayBucket → List DayBucket
  | [] => [bumpDay feature p c tot ⟨today, [], fbZero⟩]
  | d :: rest =>
      if d.date = today then bumpDay feature p c tot d :: rest
      else d :: recordDays today feature p c tot rest

/-- The telemetry tracker state Record and Flush act on. -/
structure Tracker where
  days : List DayBucket
  dirty : Bool
  deriving DecidableEq

/-- Tracker.Record (`today` passed in for `time.Now().Format("2006-01-02")`):
an all-zero usage report returns without touching the tracker; otherwise the
day list is updated and the tracker marked dirty. -/
def record (today feature : String) (p c tot : Int) (t : Tracker) : Tracker :=
  if tot = 0 ∧ p = 0 ∧ c = 0 then t
  else ⟨recordDays today feature p c tot t.days, true⟩

/-- Tracker.prune: keep exactly the days whose date is bytewise at or above
the cutoff (`now − 30d`, passed in). -/
def pruneDays (cutoff : String) (days : List DayBucket) : List DayBucket :=
  days.filter (fun d => goStrLe cutoff d.date)

/-- Tracker.Flush: a clean tracker returns immediately; a dirty one prunes to
the 30-day window, clears the dirty flag and writes (the write itself is the
telemetryFlushOps trace). -/
def flush (cutoff : String) (t : Tracker) : Tracker :=
  if t.dirty then ⟨pruneDays cutoff t.days, false⟩ else t

/-- NewTracker / Tracker.load: the day list read from disk, not dirty. -/
def newTracker (loaded : List DayBucket) : Tracker := ⟨loaded, false⟩

/-- One Record call's arguments (the date stands for the call's `time.Now()`
day). -/
structure RecordCall where
  today : String
  feature : String
  prompt : Int
  completion : Int
  total : Int
  deriving DecidableEq

/-- A sequence of Tracker.Record calls applied in order. -/
def applyRecords (calls : List RecordCall) (t : Tracker) : Tracker :=
  calls.foldl (fun acc c => record c.today c.feature c.prompt c.completion c.total acc) t

/-- Componentwise sum of the feature map's buckets. -/
def sumFeatures : List (String × FeatureBucket) → FeatureBucket
  | [] => fbZero
  | kv :: rest => fbPlus kv.2 (sumFeatures rest)

/-- The webhook request payload (type `webhookPayload`); `metadata` is an
association list for the Go string map. -/
structure WebhookPayload where
  source : String
  event : String
  content : String
  metadata : List (String × String)
  deriving DecidableEq

/-- An inbound bus message as the webhook channel synthesizes one. -/
structure InboundMsg where
  senderId : String
  chatId : String
  content : String
  metadata : List (String × String)
  deriving DecidableEq

/-- An HTTP response: status code and body text. -/
structure HttpResponse where
  status : Nat
  body : String
  deriving DecidableEq

/-- Store into a string map (association list, unique keys): replace the
entry for the key, else append. -/
def mdStore : List (String × String) → String → String → List (String × String)
  | [], k, v => [(k, v)]
  | kv :: rest, k, v => if kv.1 = k then (k, v) :: rest else kv :: mdStore rest k v

/-- Character-wise comparison under ASCII case folding: the A-Z fast path of
strings.EqualFold (Char.toLower folds exactly the letters A-Z). -/
def eqFoldChars : List Char → List Char → Bool
  | [], [] => true
  | c :: cs, d :: ds => c.toLower == d.toLower && eqFoldChars cs ds
  | _, _ => false

/-- strings.EqualFold restricted to all-ASCII strings. On a pair of ASCII
runes Go takes the A-Z fast path, which this matches exactly; on non-ASCII
runes the library applies Unicode simple folding, which is wider (it also
equates pairs such as U+017F with s and U+212A with k). The handler therefore
takes the comparator as an opaque parameter standing for the library
function, and this definition instantiates it only at all-ASCII inputs in
the concrete witnesses, where the two agree. -/
def asciiEqualFold (a b : String) : Bool := eqFoldChars a.data b.data

/-- WebhookChannel.processEvent: the inbound message built from an accepted
payload — sender `webhook:<source>`, chat `webhook:<source>:<event>`, content
`[Webhook: <source>/<event>] <content>`, the platform/source/event metadata
overlaid with the payload's metadata. -/
def processEvent (p : WebhookPayload) : InboundMsg :=
  { senderId := "webhook:" ++ p.source
    chatId := "webhook:" ++ p.source ++ ":" ++ p.event
    content := "[Webhook: " ++ p.source ++ "/" ++ p.event ++ "] " ++ p.content
    metadata :=
      p.metadata.foldl (fun m kv => mdStore m kv.1 kv.2)
        [("platform", "webhook"), ("source", p.source), ("event", p.event)] }

/-- The body-processing tail of WebhookChannel.handler, after the method and
bearer-token gates: `body = none` stands for an unparseable request body
(json.Unmarshal failure or a body read error), both answered 400. -/
def handlerBody (body : Option WebhookPayload) : HttpResponse × Option InboundMsg :=
  match body with
  | none => (⟨400, "Bad request"⟩, none)
  | some p =>
      if p.content = "" then (⟨400, "content is required"⟩, none)
      else (⟨200, "\x7b\"status\":\"ok\"\x7d"⟩, some (processEvent p))

/-- WebhookChannel.handler: non-POST is 405; with a secret configured, an
Authorization header that does not EqualFold `"Bearer " + secret` is 401;
then the body gates of handlerBody. strings.EqualFold is Go standard-library
code (Unicode simple case folding), not code of this repository, so it
enters the embedding as the opaque comparator `equalFold` — just as
json.Unmarshal enters as the pre-parsed body. The accepted message is handed
to HandleMessage asynchronously, modelled as the second component. -/
def handler (equalFold : String → String → Bool) (secret method auth : String)
    (body : Option WebhookPayload) : HttpResponse × Option InboundMsg :=
  if method ≠ "POST" then (⟨405, "Method not allowed"⟩, none)
  else if secret ≠ "" ∧ equalFold auth ("Bearer " ++ secret) = false then
    (⟨401, "Unauthorized"⟩, none)
  else handlerBody body

/-- An outbound bus message (bus.OutboundMessage restricted to the fields the
sentinel fills). -/
structure OutboundMsg where
  channel : String
  chatId : String
  content : String
  deriving DecidableEq

/-- Modelled from the spec: constants.IsInternalChannel is not among the
provided sources; the spec names `cron` and `webhook` as the internal
channels never used as alert destinations. -/
def isInternalChannel (platform : String) : Bool :=
  platform == "cron" || platform == "webhook"

/-- sentinel.parseLastChannel: split on the first colon into platform and
user id; no colon, or an empty side, yields two empty strings. -/
def parseLastChannel (lastChannel : String) : String × String :=
  match lastChannel.splitOn ":" with
  | [] => ("", "")
  | [_] => ("", "")
  | p0 :: rest =>
      let p1 := String.intercalate ":" rest
      if p0 = "" ∨ p1 = "" then ("", "") else (p0, p1)

/-- What sendAlert sees of the world on one call: the clock (seconds), the
bus reference, and the state manager's last channel. -/
structure AlertEnv where
  now : Nat
  busSet : Bool
  lastChannel : String
  deriving DecidableEq

/-- The sentinel's lastAlertTime map: alert string to the seconds timestamp
recorded when that alert last got past the rate check. -/
def alertLookup : List (String × Nat) → String → Option Nat
  | [], _ => none
  | kv :: rest, a => if kv.1 = a then some kv.2 else alertLookup rest a

/-- Store into the lastAlertTime map: replace the entry, else append. -/
def alertStore : List (String × Nat) → String → Nat → List (String × Nat)
  | [], a, t => [(a, t)]
  | kv :: rest, a, t => if kv.1 = a then (a, t) :: rest else kv :: alertStore rest a t

/-- Service.sendAlert: inside the lock, an alert seen less than an hour ago
returns at once; otherwise its emission time is recorded FIRST, and only then
is delivery attempted — no bus, no last channel, an unparseable last channel
or an internal platform all drop the alert after the time was recorded.
`time.Since(lastTime) < time.Hour` is `env.now - t < 3600` (Nat subtraction:
a recorded time in the future also suppresses, as Go's negative Since does). -/
def sendAlert (env : AlertEnv) (lastAlert : List (String × Nat)) (alert : String) :
    List (String × Nat) × Option OutboundMsg :=
  match alertLookup lastAlert alert with
  | some t =>
      if env.now - t < 3600 then (lastAlert, none)
      else sendAlertUnlocked env (alertStore lastAlert alert env.now) alert
  | none => sendAlertUnlocked env (alertStore lastAlert alert env.now) alert
where
  /-- The delivery attempt after the timestamp was recorded. -/
  sendAlertUnlocked (env : AlertEnv) (recorded : List (String × Nat))
      (alert : String) : List (String × Nat) × Option OutboundMsg :=
    if ¬ env.busSet then (recorded, none)
    else if env.lastChannel = "" then (recorded, none)
    else
      let pc := parseLastChannel env.lastChannel
      if pc.1 = "" ∨ pc.2 = "" ∨ isInternalChannel pc.1 then (recorded, none)
      else (recorded, some ⟨pc.1, pc.2, "⚠️ " ++ alert⟩)

/-- An event of the sentinel trace: a sentinel.json snapshot write, or a
published alert with its emission time. -/
inductive SentinelEv where
  | saved
  | published (alert : String) (time : Nat)
  deriving DecidableEq

/-- One Service.collect tick: persist the snapshot (always), then run
sendAlert over the tick's alert strings in order. The tick's readings enter
only through the alert list they produce. -/
def collectTick (env : AlertEnv) (alerts : List String)
    (lastAlert : List (String × Nat)) : List (String × Nat) × List SentinelEv :=
  let step := alerts.foldl
    (fun acc a =>
      let r := sendAlert env acc.1 a
      (r.1, match r.2 with
            | some _ => acc.2 ++ [SentinelEv.published a env.now]
            | none => acc.2))
    (lastAlert, [])
  (step.1, SentinelEv.saved :: step.2)

/-- A whole sentinel run: the ticks in order, from an empty lastAlertTime
map, concatenating each tick's events. -/
def sentinelRun : List (AlertEnv × List String) →
    List (String × Nat) → List SentinelEv
  | [], _ => []
  | tick :: rest, st =>
      let r := collectTick tick.1 tick.2 st
      r.2 ++ sentinelRun rest r.1

/-- The emission times of one alert string in a trace, in order. -/
def pubTimes (tr : List SentinelEv) (alert : String) : List Nat :=
  tr.filterMap (fun e =>
    match e with
    | SentinelEv.published b t => if b = alert then some t else none
    | SentinelEv.saved => none)

/-- The snapshot writes of a trace. -/
def savedCount (tr : List SentinelEv) : Nat :=
  tr.countP (fun e => e matches SentinelEv.saved)

/-- The sendAlert calls of a sentinel run with the tick structure flattened:
each call pairs a tick's environment with one of its alert strings. The pair
returned is the final lastAlertTime map and the published events in order
(snapshot events are accounted separately). -/
def processCalls : List (AlertEnv × String) → List (String × Nat) →
    List (String × Nat) × List SentinelEv
  | [], st => (st, [])
  | c :: rest, st =>
      let r := sendAlert c.1 st c.2
      let e := match r.2 with
               | some _ => [SentinelEv.published c.2 c.1.now]
               | none => []
      let rr := processCalls rest r.1
      (rr.1, e ++ rr.2)

/-- One tick's sendAlert calls. -/
def tickCalls (tick : AlertEnv × List String) : List (AlertEnv × String) :=
  tick.2.map (fun b => (tick.1, b))

/-- All sendAlert calls of a run, in order. -/
def runCalls : List (AlertEnv × List String) → List (AlertEnv × String)
  | [] => []
  | tick :: rest => tickCalls tick ++ runCalls rest

/- ------------------------------------------------------------------ -/
/- Theorems -/
/- ------------------------------------------------------------------ -/

/-- Claim C1 (counterexample): the snippet store's write is NOT a
write-temp-then-rename — saveSnippets writes the serialized map straight to
snippets.json, so the claimed atomic pattern fails for this persisted
entity (tasks and notes write the same way). -/
theorem c1_snippets_write_not_atomic :
    ¬ isAtomicReplace (saveSnippetsOps "[]") snippetsPath := by
  rintro ⟨tmp, data, hne, h⟩
  simp [saveSnippetsOps] at h

/-- Claim C1 (amended): reminder, telemetry and sentinel writes do follow
write-temp-then-rename, while the snippet, task and note stores write their
file in place with a single direct write. -/
theorem c1_write_patterns (data : String) :
    isAtomicReplace (saveRemindersOps data) remindersPath ∧
    isAtomicReplace (telemetryFlushOps data) telemetryPath ∧
    isAtomicReplace (sentinelSaveStateOps data) sentinelPath ∧
    saveSnippetsOps data = [FsOp.write snippetsPath data] ∧
    saveTasksOps data = [FsOp.write tasksPath data] ∧
    saveNotesOps data = [FsOp.write notesPath data] :=
  ⟨⟨remindersPath ++ ".tmp", data, by decide, rfl⟩,
   ⟨telemetryPath ++ ".tmp", data, by decide, rfl⟩,
   ⟨sentinelPath ++ ".tmp", data, by decide, rfl⟩,
   rfl, rfl, rfl⟩

/-- Claim C2 (code bug): StartPendingReminders skips fired reminders before
parsing their IDs into the maxID scan, so a persisted list holding only the
fired reminder "1" restarts the counter at 1, and the next `set` call hands
out "1" again: the file then holds two reminders with the same ID, against
the spec's monotone, restart-stable ID assignment. -/
theorem c2_fired_id_reused :
    ((reminderSet "2024-06-02T10:00:00Z" "2024-06-02T11:00:00Z" "hello"
        (startPendingReminders
          [⟨"1", "old", "2024-01-01T00:00:00Z", "telegram", "42",
            "2023-12-31T00:00:00Z", true⟩] "telegram" "42")).2.reminders.map
      Reminder.id) = ["1", "1"] := by
  decide

/-- Claim C3 (counterexample): a tracker freshly loaded from disk is not
dirty, and Flush on a clean tracker returns before pruning — so with no
Record call preceding the flush, a day far older than the 30-day cutoff
survives Flush, refuting the "regardless of what sequence of Record calls
(possibly none)" quantification. -/
theorem c3_clean_flush_keeps_stale_day :
    (applyRecords [] (newTracker [⟨"1970-01-01", [], fbZero⟩])).dirty = false ∧
    flush "2026-09-11" (applyRecords [] (newTracker [⟨"1970-01-01", [], fbZero⟩]))
      = newTracker [⟨"1970-01-01", [], fbZero⟩] ∧
    goStrLt "1970-01-01" "2026-09-11" = true := by
  refine ⟨rfl, rfl, by decide⟩

/-- Claim C3 (amended): after Flush on a DIRTY tracker — that is, when at
least one effective Record preceded it since load or the last flush — no day
bucket below the 30-day cutoff date remains; a clean tracker's Flush is a
no-op and may keep stale days loaded from disk. -/
theorem c3_dirty_flush_prunes (cutoff : String) (t : Tracker)
    (hdirty : t.dirty = true) :
    ∀ d ∈ (flush cutoff t).days, goStrLe cutoff d.date = true := by
  intro d hd
  simp only [flush, hdirty, if_true] at hd
  simp only [pruneDays, List.mem_filter] at hd
  exact hd.2

/-- Claim C3 (witness for the amended theorem): a dirty tracker pruned at the
2026-09-11 cutoff keeps its 2026-10-01 day, whose date is at or above the
cutoff. -/
theorem c3_dirty_flush_prunes_witness :
    (Tracker.mk [⟨"2026-10-01", [], fbZero⟩] true).dirty = true ∧
    goStrLe "2026-09-11" "2026-10-01" = true :=
  ⟨rfl, c3_dirty_flush_prunes "2026-09-11" (Tracker.mk [⟨"2026-10-01", [], fbZero⟩] true)
    rfl ⟨"2026-10-01", [], fbZero⟩ (by decide)⟩

/-- fbAdd is the componentwise sum with the one-call delta bucket. -/
theorem fbAdd_eq_fbPlus (x : FeatureBucket) (p c tot : Int) :
    fbAdd x p c tot = fbPlus x ⟨p, c, tot, 1⟩ := by
  simp [fbAdd, fbPlus]

/-- Componentwise bucket addition is associative. -/
theorem fbPlus_assoc (a b c : FeatureBucket) :
    fbPlus (fbPlus a b) c = fbPlus a (fbPlus b c) := by
  simp [fbPlus, add_assoc]

/-- Bumping one feature entry adds exactly the one-call delta to the
feature-map sum. -/
theorem sumFeatures_bumpFeature (p c tot : Int) (f : String)
    (fs : List (String × FeatureBucket)) :
    sumFeatures (bumpFeature p c tot f fs)
      = fbPlus (sumFeatures fs) ⟨p, c, tot, 1⟩ := by
  induction fs with
  | nil =>
      simp [bumpFeature, sumFeatures, fbAdd, fbPlus, fbZero]
  | cons kv rest ih =>
      by_cases hkey : kv.1 = f
      · simp only [bumpFeature, hkey, if_true, sumFeatures,
          fbAdd_eq_fbPlus]
        obtain ⟨a1, a2, a3, a4⟩ := kv.2
        obtain ⟨s1, s2, s3, s4⟩ := sumFeatures rest
        simp [fbPlus]
        omega
      · simp only [bumpFeature, hkey, if_false, sumFeatures, ih]
        obtain ⟨a1, a2, a3, a4⟩ := kv.2
        obtain ⟨s1, s2, s3, s4⟩ := sumFeatures rest
        simp [fbPlus]
        omega

/-- A day bucket whose totals match its feature sum keeps that property
through one Record bump. -/
theorem dayWF_bumpDay (feature : String) (p c tot : Int) (d : DayBucket)
    (h : d.totals = sumFeatures d.features) :
    (bumpDay feature p c tot d).totals
      = sumFeatures (bumpDay feature p c tot d).features := by
  simp [bumpDay, sumFeatures_bumpFeature, h, fbAdd_eq_fbPlus]

/-- recordDays preserves the totals-equal-feature-sum property of every day
bucket. -/
theorem recordDays_WF (today feature : String) (p c tot : Int)
    (days : List DayBucket)
    (h : ∀ d ∈ days, d.totals = sumFeatures d.features) :
    ∀ d ∈ recordDays today feature p c tot days,
      d.totals = sumFeatures d.features := by
  induction days with
  | nil =>
      intro d hd
      simp only [recordDays, List.mem_singleton] at hd
      subst hd
      exact dayWF_bumpDay _ _ _ _ _ (by simp [sumFeatures, fbZero])
  | cons d0 rest ih =>
      intro d hd
      by_cases hdate : d0.date = today
      · simp only [recordDays, hdate, if_true, List.mem_cons] at hd
        rcases hd with hd | hd
        · subst hd
          exact dayWF_bumpDay _ _ _ _ _ (h d0 (by simp))
        · exact h d (by simp [hd])
      · simp only [recordDays, hdate, if_false, List.mem_cons] at hd
        rcases hd with hd | hd
        · subst hd
          exact h d (by simp)
        · exact ih (fun x hx => h x (by simp [hx])) d hd

/-- Record preserves the totals-equal-feature-sum property. -/
theorem record_WF (today feature : String) (p c tot : Int) (t : Tracker)
    (h : ∀ d ∈ t.days, d.totals = sumFeatures d.features) :
    ∀ d ∈ (record today feature p c tot t).days,
      d.totals = sumFeatures d.features := by
  unfold record
  by_cases hz : tot = 0 ∧ p = 0 ∧ c = 0
  · simpa [hz] using h
  · simpa [hz] using recordDays_WF today feature p c tot t.days h

/-- Any Record sequence preserves the totals-equal-feature-sum property. -/
theorem applyRecords_WF (calls : List RecordCall) (t : Tracker)
    (h : ∀ d ∈ t.days, d.totals = sumFeatures d.features) :
    ∀ d ∈ (applyRecords calls t).days,
      d.totals = sumFeatures d.features := by
  induction calls generalizing t with
  | nil => simpa [applyRecords] using h
  | cons c0 rest ih =>
      intro d hd
      have hstep := record_WF c0.today c0.feature c0.prompt c0.completion c0.total t h
      exact ih _ hstep d (by simpa [applyRecords] using hd)

/-- The calls component of the feature-map sum is the sum of the per-feature
call counters. -/
theorem sumFeatures_calls (fs : List (String × FeatureBucket)) :
    (sumFeatures fs).calls = (fs.map (fun kv => kv.2.calls)).sum := by
  induction fs with
  | nil => simp [sumFeatures, fbZero]
  | cons kv rest ih => simp [sumFeatures, fbPlus, ih]

/-- Claim C4: for any sequence of Record calls starting from an empty
tracker, every day bucket — today's included — has Totals equal to the
field-wise sum of its feature entries, and the per-feature call counters sum
to Totals.Calls. -/
theorem c4_totals_match_features (calls : List RecordCall) (d : DayBucket)
    (hd : d ∈ (applyRecords calls (newTracker [])).days) :
    d.totals = sumFeatures d.features ∧
    (d.features.map (fun kv => kv.2.calls)).sum = d.totals.calls := by
  have h := applyRecords_WF calls (newTracker []) (by simp [newTracker]) d hd
  exact ⟨h, by rw [h, sumFeatures_calls]⟩

/-- Claim C4 (witness): two chat records of 10+5=15 tokens yield today's
bucket with totals 20/10/30 in 2 calls, equal to the single feature entry. -/
theorem c4_totals_match_features_witness :
    (DayBucket.mk "2026-10-11" [("chat", ⟨20, 10, 30, 2⟩)] ⟨20, 10, 30, 2⟩)
      ∈ (applyRecords
          [⟨"2026-10-11", "chat", 10, 5, 15⟩, ⟨"2026-10-11", "chat", 10, 5, 15⟩]
          (newTracker [])).days ∧
    (DayBucket.mk "2026-10-11" [("chat", ⟨20, 10, 30, 2⟩)] ⟨20, 10, 30, 2⟩).totals
      = sumFeatures [("chat", ⟨20, 10, 30, 2⟩)] ∧
    ((([("chat", (⟨20, 10, 30, 2⟩ : FeatureBucket))]).map
        (fun kv => kv.2.calls)).sum : Int) = 2 := by
  have hmem :
      (DayBucket.mk "2026-10-11" [("chat", ⟨20, 10, 30, 2⟩)] ⟨20, 10, 30, 2⟩)
        ∈ (applyRecords
            [⟨"2026-10-11", "chat", 10, 5, 15⟩, ⟨"2026-10-11", "chat", 10, 5, 15⟩]
            (newTracker [])).days := by decide
  have h := c4_totals_match_features
    [⟨"2026-10-11", "chat", 10, 5, 15⟩, ⟨"2026-10-11", "chat", 10, 5, 15⟩]
    (DayBucket.mk "2026-10-11" [("chat", ⟨20, 10, 30, 2⟩)] ⟨20, 10, 30, 2⟩) hmem
  exact ⟨hmem, h.1, by simp only [h.2]⟩

/-- After a store, lookup of the stored key finds the stored snippet. -/
theorem snLookup_snStore (m : List (String × Snippet)) (k : String) (v : Snippet) :
    snLookup (snStore m k v) k = some v := by
  induction m with
  | nil => simp [snStore, snLookup]
  | cons kv rest ih =>
      by_cases h : kv.1 = k
      · simp [snStore, h, snLookup]
      · simp [snStore, h, snLookup, ih]

/-- After an erase, lookup of the erased key finds nothing. -/
theorem snLookup_snErase (m : List (String × Snippet)) (k : String) :
    snLookup (snErase m k) k = none := by
  induction m with
  | nil => simp [snErase, snLookup]
  | cons kv rest ih =>
      by_cases h : kv.1 = k
      · simp [snErase, h, ih]
      · simp [snErase, h, snLookup, ih]

/-- After SnippetTool.del, the deleted name resolves to nothing, whether or
not it was present. -/
theorem snippetDel_lookup_none (m : List (String × Snippet)) (k : String)
    (hk : k ≠ "") : snLookup (snippetDel k m).2 k = none := by
  unfold snippetDel
  rw [if_neg hk]
  cases hl : snLookup m k with
  | none => simpa using hl
  | some s => simpa using snLookup_snErase m k

/-- After the save loop, the saved key resolves to a note carrying the new
content, tags and update time (the creation time depends on prior state). -/
theorem noteFind_notesSaveList (now k v : String) (tags : List String)
    (ns : List MemoryNote) :
    ∃ cr, noteFind (notesSaveList now k v tags ns) k = some ⟨k, v, tags, cr, now⟩ := by
  induction ns with
  | nil => exact ⟨now, by simp [notesSaveList, noteFind]⟩
  | cons n rest ih =>
      by_cases h : n.key = k
      · refine ⟨n.createdAt, ?_⟩
        simp [notesSaveList, h, noteFind]
      · obtain ⟨cr, hcr⟩ := ih
        exact ⟨cr, by simp [notesSaveList, h, noteFind, hcr]⟩

/-- After the delete loop, the deleted key resolves to nothing. -/
theorem noteFind_noteErase (ns : List MemoryNote) (k : String) :
    noteFind (noteErase ns k) k = none := by
  induction ns with
  | nil => simp [noteErase, noteFind]
  | cons n rest ih =>
      by_cases h : n.key = k
      · simp [noteErase, h, ih]
      · simp [noteErase, h, noteFind, ih]

/-- After MemoryTool.del on a present file, the file is still present and the
deleted key resolves to nothing. -/
theorem memoryDel_state (ns : List MemoryNote) (k : String) (hk : k ≠ "") :
    ∃ ns2, (memoryDel k (some ns)).2 = some ns2 ∧ noteFind ns2 k = none := by
  unfold memoryDel
  rw [if_neg hk]
  cases hf : noteFind ns k with
  | none => exact ⟨ns, by simp [hf], hf⟩
  | some n => exact ⟨noteErase ns k, by simp [hf], noteFind_noteErase ns k⟩

/-- Looking an absent ID up in a list extended with a task of that ID finds
the new task. -/
theorem taskFind_append_none (ts : List TaskRec) (i : String)
    (h : taskFind ts i = none) (task : TaskRec) (hid : task.id = i) :
    taskFind (ts ++ [task]) i = some task := by
  induction ts with
  | nil => simp [taskFind, hid]
  | cons t rest ih =>
      by_cases ht : t.id = i
      · simp [taskFind, ht] at h
      · simp only [taskFind, ht, if_false, List.cons_append] at h ⊢
        exact ih h

/-- After the delete loop, the deleted ID resolves to nothing. -/
theorem taskFind_taskErase (ts : List TaskRec) (i : String) :
    taskFind (taskErase ts i) i = none := by
  induction ts with
  | nil => simp [taskErase, taskFind]
  | cons t rest ih =>
      by_cases h : t.id = i
      · simp [taskErase, h, ih]
      · simp [taskErase, h, taskFind, ih]

/-- After TasksTool.del on a present file, the file is still present and the
deleted ID resolves to nothing. -/
theorem taskDel_state (ts : List TaskRec) (i : String) (hk : i ≠ "") :
    ∃ ts2, (taskDel i (some ts)).2 = some ts2 ∧ taskFind ts2 i = none := by
  unfold taskDel
  rw [if_neg hk]
  cases hf : taskFind ts i with
  | none => exact ⟨ts, by simp [hf], hf⟩
  | some t => exact ⟨taskErase ts i, by simp [hf], taskFind_taskErase ts i⟩

/-- SnippetTool.get on a store without the key reports not-found, silently. -/
theorem snippetGet_notfound (m2 : List (String × Snippet)) (k : String)
    (hk : k ≠ "") (h : snLookup m2 k = none) :
    snippetGet k m2 = .silent ("No snippet found with name '" ++ k ++ "'") := by
  simp [snippetGet, hk, h]

/-- SnippetTool.del on a store without the key is a silent not-found no-op. -/
theorem snippetDel_notfound (m2 : List (String × Snippet)) (k : String)
    (hk : k ≠ "") (h : snLookup m2 k = none) :
    snippetDel k m2 = (.silent ("No snippet found with name '" ++ k ++ "'"), m2) := by
  simp [snippetDel, hk, h]

/-- MemoryTool.recall on a file without the key reports not-found, silently. -/
theorem memoryRecall_notfound (ns2 : List MemoryNote) (k : String)
    (hk : k ≠ "") (h : noteFind ns2 k = none) :
    memoryRecall k (some ns2) = .silent ("No note found with key '" ++ k ++ "'") := by
  simp [memoryRecall, hk, h]

/-- MemoryTool.del on a file without the key is a silent not-found no-op. -/
theorem memoryDel_notfound (ns2 : List MemoryNote) (k : String)
    (hk : k ≠ "") (h : noteFind ns2 k = none) :
    memoryDel k (some ns2) = (.silent ("No note found with key '" ++ k ++ "'"), some ns2) := by
  simp [memoryDel, hk, h]

/-- TasksTool.get on a file without the ID reports not-found, silently. -/
theorem taskGet_notfound (today : String) (ts2 : List TaskRec) (i : String)
    (hk : i ≠ "") (h : taskFind ts2 i = none) :
    taskGet today i (some ts2) = .silent ("No task found with ID '" ++ i ++ "'") := by
  simp [taskGet, hk, h]

/-- TasksTool.del on a file without the ID is a silent not-found no-op. -/
theorem taskDel_notfound (ts2 : List TaskRec) (i : String)
    (hk : i ≠ "") (h : taskFind ts2 i = none) :
    taskDel i (some ts2) = (.silent ("No task found with ID '" ++ i ++ "'"), some ts2) := by
  simp [taskDel, hk, h]

/-- Claim C5: for the snippet, note and task stores — save(k, v) then get(k)
returns v; delete(k) then get(k) reports not-found; a second delete(k) is a
no-op that reports not-found as a Silent (non-Error) result. The stores m,
ns and tsd of the delete laws are arbitrary — they may well contain k, so
deleting a present entry is covered; only the add-then-get law constrains
its store ts, because there k plays the fresh random ID handed to add
(hts: not yet present, as generateTaskID guarantees statistically). -/
theorem c5_save_get_delete (today now k v : String) (tags : List String)
    (m : List (String × Snippet)) (ns : List MemoryNote) (ts tsd : List TaskRec)
    (hk : k ≠ "") (hv : v ≠ "") (hts : taskFind ts k = none) :
    snippetGet k (snippetSave now k v tags m).2
      = .silent ("Snippet '" ++ k ++ "':\n" ++ v ++
          (if tags = [] then "" else "\nTags: " ++ String.intercalate ", " tags)) ∧
    snippetGet k (snippetDel k m).2
      = .silent ("No snippet found with name '" ++ k ++ "'") ∧
    snippetDel k (snippetDel k m).2
      = (.silent ("No snippet found with name '" ++ k ++ "'"), (snippetDel k m).2) ∧
    memoryRecall k (memorySave now k v tags (some ns)).2
      = .silent ("Key: " ++ k ++ "\nContent: " ++ v ++
          (if tags = [] then "" else "\nTags: " ++ String.intercalate ", " tags)) ∧
    memoryRecall k (memoryDel k (some ns)).2
      = .silent ("No note found with key '" ++ k ++ "'") ∧
    memoryDel k (memoryDel k (some ns)).2
      = (.silent ("No note found with key '" ++ k ++ "'"), (memoryDel k (some ns)).2) ∧
    taskGet today k (taskAdd k now v (some ts)).2
      = .silent (formatTask today ⟨k, v, "", "pending", "medium", "", [], "", "", now, now⟩) ∧
    taskGet today k (taskDel k (some tsd)).2
      = .silent ("No task found with ID '" ++ k ++ "'") ∧
    taskDel k (taskDel k (some tsd)).2
      = (.silent ("No task found with ID '" ++ k ++ "'"), (taskDel k (some tsd)).2) := by
  have hor : ¬ (k = "" ∨ v = "") := by
    rintro (h | h)
    · exact hk h
    · exact hv h
  refine ⟨?_, ?_, ?_, ?_, ?_, ?_, ?_, ?_, ?_⟩
  · cases hl : snLookup m k with
    | some old =>
        simp [snippetSave, hor, hk, hv, hl, snippetGet, snLookup_snStore, snippetGetText]
    | none =>
        simp [snippetSave, hor, hk, hv, hl, snippetGet, snLookup_snStore, snippetGetText]
  · exact snippetGet_notfound _ k hk (snippetDel_lookup_none m k hk)
  · exact snippetDel_notfound _ k hk (snippetDel_lookup_none m k hk)
  · obtain ⟨cr, hcr⟩ := noteFind_notesSaveList now k v tags ns
    simp [memorySave, hor, hk, hv, memoryRecall, hcr]
  · obtain ⟨ns2, hstate, hfind⟩ := memoryDel_state ns k hk
    rw [hstate]
    exact memoryRecall_notfound ns2 k hk hfind
  · obtain ⟨ns2, hstate, hfind⟩ := memoryDel_state ns k hk
    rw [hstate, memoryDel_notfound ns2 k hk hfind]
  · have hfind := taskFind_append_none ts k hts
      ⟨k, v, "", "pending", "medium", "", [], "", "", now, now⟩ rfl
    simp [taskAdd, hv, taskGet, hk, hfind]
  · obtain ⟨ts2, hstate, hfind⟩ := taskDel_state tsd k hk
    rw [hstate]
    exact taskGet_notfound today ts2 k hk hfind
  · obtain ⟨ts2, hstate, hfind⟩ := taskDel_state tsd k hk
    rw [hstate, taskDel_notfound ts2 k hk hfind]

/-- Claim C5 (witness): the round trips at key "pw" and content "hunter2",
with every delete exercised on a store that CONTAINS "pw": the snippet map,
note list and task list each start with a "pw" entry, the first delete
removes it (the resulting store is empty), get then reports not-found, and
the second delete is a silent no-op; add-then-get runs on an empty task
store, "pw" being the fresh random ID. -/
theorem c5_save_get_delete_witness :
    snippetGet "pw"
        (snippetSave "T" "pw" "hunter2" [] [("pw", ⟨"old", [], "T0", "T0"⟩)]).2
      = .silent "Snippet 'pw':\nhunter2" ∧
    snippetGet "pw" (snippetDel "pw" [("pw", ⟨"old", [], "T0", "T0"⟩)]).2
      = .silent "No snippet found with name 'pw'" ∧
    snippetDel "pw" (snippetDel "pw" [("pw", ⟨"old", [], "T0", "T0"⟩)]).2
      = (.silent "No snippet found with name 'pw'", []) ∧
    memoryRecall "pw"
        (memorySave "T" "pw" "hunter2" [] (some [⟨"pw", "old", [], "T0", "T0"⟩])).2
      = .silent "Key: pw\nContent: hunter2" ∧
    memoryRecall "pw" (memoryDel "pw" (some [⟨"pw", "old", [], "T0", "T0"⟩])).2
      = .silent "No note found with key 'pw'" ∧
    memoryDel "pw" (memoryDel "pw" (some [⟨"pw", "old", [], "T0", "T0"⟩])).2
      = (.silent "No note found with key 'pw'", some []) ∧
    taskGet "2026-10-11" "pw" (taskAdd "pw" "T" "hunter2" (some [])).2
      = .silent (formatTask "2026-10-11"
          ⟨"pw", "hunter2", "", "pending", "medium", "", [], "", "", "T", "T"⟩) ∧
    taskGet "2026-10-11" "pw"
        (taskDel "pw" (some [⟨"pw", "pay bill", "", "pending", "medium", "",
          [], "", "", "T0", "T0"⟩])).2
      = .silent "No task found with ID 'pw'" ∧
    taskDel "pw"
        (taskDel "pw" (some [⟨"pw", "pay bill", "", "pending", "medium", "",
          [], "", "", "T0", "T0"⟩])).2
      = (.silent "No task found with ID 'pw'", some []) := by
  exact c5_save_get_delete "2026-10-11" "T" "pw" "hunter2" []
    [("pw", ⟨"old", [], "T0", "T0"⟩)] [⟨"pw", "old", [], "T0", "T0"⟩] []
    [⟨"pw", "pay bill", "", "pending", "medium", "", [], "", "", "T0", "T0"⟩]
    (by decide) (by decide) rfl

/-- The listing tags a task exactly when the isOverdue test passes. -/
theorem overdueTag_eq_iff (today : String) (t : TaskRec) :
    overdueTag today t = " [OVERDUE]" ↔ isOverdue today t = true := by
  unfold overdueTag
  by_cases h : isOverdue today t = true <;> simp [h]

/-- The isOverdue test spelled out: non-empty due date bytewise below today,
status neither done nor cancelled. -/
theorem isOverdue_iff (today : String) (t : TaskRec) :
    isOverdue today t = true ↔
      (t.dueDate ≠ "" ∧ goStrLt t.dueDate today = true ∧
        t.status ≠ "done" ∧ t.status ≠ "cancelled") := by
  simp [isOverdue, Bool.and_eq_true, bne_iff_ne, and_assoc]

/-- Claim C6: with statuses drawn from the task data model, a task is tagged
" [OVERDUE]" in list() exactly when its due date is non-empty and bytewise
below today and its status is pending or in_progress; the header's overdue
counter counts exactly those tasks; and every such task's line appears in
the listing, tagged. -/
theorem c6_overdue_tagging (today : String) (tasks : List TaskRec)
    (hwf : ∀ t ∈ tasks, t.status = "pending" ∨ t.status = "in_progress" ∨
      t.status = "done" ∨ t.status = "cancelled") :
    (∀ t ∈ tasks,
      (overdueTag today t = " [OVERDUE]" ↔
        (t.dueDate ≠ "" ∧ goStrLt t.dueDate today = true ∧
          (t.status = "pending" ∨ t.status = "in_progress")))) ∧
    listOverdueCount today tasks
      = tasks.countP (fun t => t.dueDate != "" && goStrLt t.dueDate today &&
          (t.status == "pending" || t.status == "in_progress")) ∧
    (∀ t ∈ tasks, (t.dueDate ≠ "" ∧ goStrLt t.dueDate today = true ∧
        (t.status = "pending" ∨ t.status = "in_progress")) →
      taskLine today t = taskLineBase t ++ " [OVERDUE]" ∧
      taskLine today t ∈ (tasks.filter isActive).map (taskLine today)) := by
  refine ⟨?_, ?_, ?_⟩
  · intro t ht
    rw [overdueTag_eq_iff, isOverdue_iff]
    rcases hwf t ht with h | h | h | h <;> simp [h]
  · unfold listOverdueCount
    rw [List.countP_filter]
    refine List.countP_congr ?_
    intro t ht
    rcases hwf t ht with h | h | h | h <;> simp [isOverdue, isActive, h]
  · intro t ht hcond
    have hstatus : t.status = "pending" ∨ t.status = "in_progress" := hcond.2.2
    have hover : isOverdue today t = true := by
      rw [isOverdue_iff]
      rcases hstatus with h | h <;>
        exact ⟨hcond.1, hcond.2.1, by simp [h], by simp [h]⟩
    have hactive : isActive t = true := by
      rcases hstatus with h | h <;> simp [isActive, h]
    constructor
    · simp [taskLine, overdueTag, hover]
    · exact List.mem_map_of_mem (taskLine today)
        (List.mem_filter.mpr ⟨ht, hactive⟩)

/-- Claim C6 (witness): on 2024-06-10, a pending task due 2024-06-09 is
tagged overdue, counted once in the header, and listed with the tag. -/
theorem c6_overdue_tagging_witness :
    (overdueTag "2024-06-10"
        ⟨"ab12", "pay bill", "", "pending", "medium", "2024-06-09", [], "", "",
          "T", "T"⟩ = " [OVERDUE]" ↔
      (("2024-06-09" : String) ≠ "" ∧ goStrLt "2024-06-09" "2024-06-10" = true ∧
        (("pending" : String) = "pending" ∨ ("pending" : String) = "in_progress"))) ∧
    listOverdueCount "2024-06-10"
      [⟨"ab12", "pay bill", "", "pending", "medium", "2024-06-09", [], "", "",
        "T", "T"⟩] = 1 := by
  have h := c6_overdue_tagging "2024-06-10"
    [⟨"ab12", "pay bill", "", "pending", "medium", "2024-06-09", [], "", "",
      "T", "T"⟩] (by intro t ht; simp at ht; subst ht; left; rfl)
  refine ⟨h.1 _ (by simp), ?_⟩
  rw [h.2.1]
  decide

/-- Storing an alert time makes it the looked-up time for that alert. -/
theorem alertLookup_alertStore_self (st : List (String × Nat)) (a : String) (t : Nat) :
    alertLookup (alertStore st a t) a = some t := by
  induction st with
  | nil => simp [alertStore, alertLookup]
  | cons kv rest ih =>
      by_cases h : kv.1 = a
      · simp [alertStore, h, alertLookup]
      · simp [alertStore, h, alertLookup, ih]

/-- Storing one alert's time leaves every other alert's time unchanged. -/
theorem alertLookup_alertStore_ne (st : List (String × Nat)) (b a : String)
    (t : Nat) (h : b ≠ a) :
    alertLookup (alertStore st b t) a = alertLookup st a := by
  induction st with
  | nil => simp [alertStore, alertLookup, h]
  | cons kv rest ih =>
      by_cases hk : kv.1 = b
      · simp only [alertStore, hk, if_true, alertLookup]
        rw [if_neg (by simpa [hk] using h), if_neg (by simpa [hk] using h)]
      · simp only [alertStore, hk, if_false, alertLookup]
        by_cases hka : kv.1 = a
        · simp [hka]
        · simp [hka, ih]

/-- The delivery attempt never changes the recorded map it is given. -/
theorem sendAlertUnlocked_fst (env : AlertEnv) (recorded : List (String × Nat))
    (alert : String) :
    (sendAlert.sendAlertUnlocked env recorded alert).1 = recorded := by
  unfold sendAlert.sendAlertUnlocked
  split
  · rfl
  · split
    · rfl
    · dsimp only
      split
      · rfl
      · rfl

/-- sendAlert either returns at the rate check — alert seen under an hour ago,
state untouched, nothing published — or records the call time for the alert
and hands over to the delivery attempt. -/
theorem sendAlert_cases (env : AlertEnv) (st : List (String × Nat)) (a : String) :
    (sendAlert env st a = (st, none) ∧
      ∃ t, alertLookup st a = some t ∧ env.now - t < 3600) ∨
    ((∀ t, alertLookup st a = some t → 3600 ≤ env.now - t) ∧
      (sendAlert env st a).1 = alertStore st a env.now) := by
  unfold sendAlert
  cases hl : alertLookup st a with
  | none =>
      right
      refine ⟨fun t ht => by simp [hl] at ht, ?_⟩
      simp only []
      exact sendAlertUnlocked_fst env (alertStore st a env.now) a
  | some t =>
      by_cases hlt : env.now - t < 3600
      · left
        exact ⟨by simp [hlt], t, rfl, hlt⟩
      · right
        refine ⟨?_, ?_⟩
        · intro t2 ht2
          have ht : t = t2 := Option.some.inj ht2
          subst ht
          omega
        · simp only [hlt, if_false]
          exact sendAlertUnlocked_fst env (alertStore st a env.now) a

/-- Emission times distribute over trace concatenation. -/
theorem pubTimes_append (x y : List SentinelEv) (a : String) :
    pubTimes (x ++ y) a = pubTimes x a ++ pubTimes y a := by
  simp [pubTimes, List.filterMap_append]

/-- A snapshot event carries no emission time. -/
theorem pubTimes_saved_cons (tr : List SentinelEv) (a : String) :
    pubTimes (SentinelEv.saved :: tr) a = pubTimes tr a := by
  simp [pubTimes]

/-- An own-alert publication event carries its emission time. -/
theorem pubTimes_published_self (a : String) (t : Nat) :
    pubTimes [SentinelEv.published a t] a = [t] := by
  simp [pubTimes]

/-- Another alert's publication event carries no emission time for this one. -/
theorem pubTimes_published_ne (b a : String) (t : Nat) (h : b ≠ a) :
    pubTimes [SentinelEv.published b t] a = [] := by
  simp [pubTimes, h]

/-- The heart of the sentinel rate limit, by induction over the flattened
call list: relative to any starting map, (i) every future emission of an
alert lies a full hour past its currently recorded time, (ii) the emissions
of one alert are pairwise at least an hour apart, (iii) the recorded time
only moves forward, and (iv) the final recorded time dominates every
emission. -/
theorem processCalls_spec (a : String) (cs : List (AlertEnv × String)) :
    ∀ st : List (String × Nat),
    (∀ p ∈ pubTimes (processCalls cs st).2 a,
      ∀ t, alertLookup st a = some t → t + 3600 ≤ p) ∧
    (pubTimes (processCalls cs st).2 a).Pairwise (fun t1 t2 => t1 + 3600 ≤ t2) ∧
    (∀ t, alertLookup st a = some t →
      ∃ t2, alertLookup (processCalls cs st).1 a = some t2 ∧ t ≤ t2) ∧
    (∀ p ∈ pubTimes (processCalls cs st).2 a,
      ∃ t2, alertLookup (processCalls cs st).1 a = some t2 ∧ p ≤ t2) := by
  induction cs with
  | nil =>
      intro st
      refine ⟨by simp [processCalls, pubTimes], by simp [processCalls, pubTimes],
        ?_, by simp [processCalls, pubTimes]⟩
      intro t ht
      exact ⟨t, by simpa [processCalls] using ht, le_rfl⟩
  | cons c rest ih =>
      intro st
      obtain ⟨env, b⟩ := c
      rcases sendAlert_cases env st b with ⟨heq, t0, ht0, hlt0⟩ | ⟨hpass, hfst⟩
      · simpa [processCalls, heq] using ih st
      · by_cases hba : b = a
        · subst hba
          have hlook1 : alertLookup (sendAlert env st b).1 b = some env.now := by
            rw [hfst]
            exact alertLookup_alertStore_self st b env.now
          obtain ⟨ih1, ih2, ih3, ih4⟩ := ih (sendAlert env st b).1
          have hgap : ∀ t, alertLookup st b = some t → t + 3600 ≤ env.now := by
            intro t ht
            have := hpass t ht
            omega
          have hle : ∀ t, alertLookup st b = some t → t ≤ env.now := by
            intro t ht
            have := hgap t ht
            omega
          cases hout : (sendAlert env st b).2 with
          | none =>
              refine ⟨?_, ?_, ?_, ?_⟩
              · intro p hp t ht
                simp only [processCalls, hout, List.nil_append] at hp
                have hnow := ih1 p hp env.now hlook1
                have := hle t ht
                omega
              · simpa [processCalls, hout] using ih2
              · intro t ht
                obtain ⟨t2, hfin, hle2⟩ := ih3 env.now hlook1
                refine ⟨t2, by simpa [processCalls, hout] using hfin, ?_⟩
                have := hle t ht
                omega
              · intro p hp
                simp only [processCalls, hout, List.nil_append] at hp
                obtain ⟨t2, hfin, hle2⟩ := ih4 p hp
                exact ⟨t2, by simpa [processCalls, hout] using hfin, hle2⟩
          | some m =>
              have hpubs : pubTimes (processCalls ((env, b) :: rest) st).2 b
                  = env.now :: pubTimes (processCalls rest (sendAlert env st b).1).2 b := by
                simp [processCalls, hout, pubTimes]
              refine ⟨?_, ?_, ?_, ?_⟩
              · intro p hp t ht
                rw [hpubs] at hp
                rcases List.mem_cons.mp hp with hp | hp
                · subst hp
                  exact hgap t ht
                · have hnow := ih1 p hp env.now hlook1
                  have := hle t ht
                  omega
              · rw [hpubs]
                exact List.pairwise_cons.mpr ⟨fun p hp => ih1 p hp env.now hlook1, ih2⟩
              · intro t ht
                obtain ⟨t2, hfin, hle2⟩ := ih3 env.now hlook1
                refine ⟨t2, by simpa [processCalls, hout] using hfin, ?_⟩
                have := hle t ht
                omega
              · intro p hp
                rw [hpubs] at hp
                rcases List.mem_cons.mp hp with hp | hp
                · subst hp
                  obtain ⟨t2, hfin, hle2⟩ := ih3 env.now hlook1
                  exact ⟨t2, by simpa [processCalls, hout] using hfin, hle2⟩
                · obtain ⟨t2, hfin, hle2⟩ := ih4 p hp
                  exact ⟨t2, by simpa [processCalls, hout] using hfin, hle2⟩
        · have hlooka : alertLookup (sendAlert env st b).1 a = alertLookup st a := by
            rw [hfst]
            exact alertLookup_alertStore_ne st b a env.now hba
          obtain ⟨ih1, ih2, ih3, ih4⟩ := ih (sendAlert env st b).1
          have hpubs : pubTimes (processCalls ((env, b) :: rest) st).2 a
              = pubTimes (processCalls rest (sendAlert env st b).1).2 a := by
            cases hout : (sendAlert env st b).2 <;>
              simp [processCalls, hout, pubTimes, hba]
          refine ⟨?_, ?_, ?_, ?_⟩
          · intro p hp t ht
            rw [hpubs] at hp
            exact ih1 p hp t (by rw [hlooka]; exact ht)
          · rw [hpubs]
            exact ih2
          · intro t ht
            obtain ⟨t2, hfin, hle2⟩ := ih3 t (by rw [hlooka]; exact ht)
            exact ⟨t2, by simpa [processCalls] using hfin, hle2⟩
          · intro p hp
            rw [hpubs] at hp
            obtain ⟨t2, hfin, hle2⟩ := ih4 p hp
            exact ⟨t2, by simpa [processCalls] using hfin, hle2⟩

/-- The collect loop over one tick's alerts is processCalls on that tick's
flattened calls, with the accumulated events appended. -/
theorem tickFold_eq (env : AlertEnv) (alerts : List String) :
    ∀ (st : List (String × Nat)) (acc : List SentinelEv),
      (alerts.foldl
        (fun acc a =>
          let r := sendAlert env acc.1 a
          (r.1, match r.2 with
                | some _ => acc.2 ++ [SentinelEv.published a env.now]
                | none => acc.2))
        (st, acc))
      = ((processCalls (alerts.map (fun b => (env, b))) st).1,
         acc ++ (processCalls (alerts.map (fun b => (env, b))) st).2) := by
  induction alerts with
  | nil => intro st acc; simp [processCalls]
  | cons b rest ih =>
      intro st acc
      simp only [List.foldl_cons, List.map_cons, processCalls]
      cases hout : (sendAlert env st b).2 <;>
        simp [hout, ih (sendAlert env st b).1]

/-- One tick is a snapshot event followed by the tick's processCalls trace. -/
theorem collectTick_eq (env : AlertEnv) (alerts : List String)
    (st : List (String × Nat)) :
    collectTick env alerts st
      = ((processCalls (tickCalls (env, alerts)) st).1,
         SentinelEv.saved :: (processCalls (tickCalls (env, alerts)) st).2) := by
  simp [collectTick, tickCalls, tickFold_eq env alerts st []]

/-- processCalls splits over call-list concatenation: states chain, events
append. -/
theorem processCalls_append (xs ys : List (AlertEnv × String)) :
    ∀ st : List (String × Nat),
      processCalls (xs ++ ys) st
        = ((processCalls ys (processCalls xs st).1).1,
           (processCalls xs st).2 ++ (processCalls ys (processCalls xs st).1).2) := by
  induction xs with
  | nil => intro st; simp [processCalls]
  | cons c rest ih =>
      intro st
      simp only [List.cons_append, processCalls]
      cases hout : (sendAlert c.1 st c.2).2 <;> simp [hout, ih]

/-- A run's emission times are those of its flattened call list. -/
theorem sentinelRun_pubTimes (a : String) (ticks : List (AlertEnv × List String)) :
    ∀ st : List (String × Nat),
      pubTimes (sentinelRun ticks st) a
        = pubTimes (processCalls (runCalls ticks) st).2 a := by
  induction ticks with
  | nil => intro st; simp [sentinelRun, runCalls, processCalls, pubTimes]
  | cons tick rest ih =>
      intro st
      obtain ⟨env, alerts⟩ := tick
      simp only [sentinelRun, runCalls, collectTick_eq, pubTimes_append,
        pubTimes_saved_cons, processCalls_append, ih]

/-- processCalls emits publication events only. -/
theorem processCalls_no_saved (cs : List (AlertEnv × String)) :
    ∀ st : List (String × Nat), savedCount (processCalls cs st).2 = 0 := by
  induction cs with
  | nil => intro st; simp [processCalls, savedCount]
  | cons c rest ih =>
      intro st
      cases hout : (sendAlert c.1 st c.2).2 <;>
        simp [processCalls, hout, savedCount, List.countP_append] <;>
        simpa [savedCount] using ih (sendAlert c.1 st c.2).1

/-- Every tick writes exactly one sentinel.json snapshot, alert or not. -/
theorem sentinelRun_savedCount (ticks : List (AlertEnv × List String)) :
    ∀ st : List (String × Nat),
      savedCount (sentinelRun ticks st) = ticks.length := by
  induction ticks with
  | nil => intro st; simp [sentinelRun, savedCount]
  | cons tick rest ih =>
      intro st
      obtain ⟨env, alerts⟩ := tick
      simp only [sentinelRun, collectTick_eq, savedCount, List.countP_append,
        List.countP_cons]
      have h1 : savedCount (processCalls (tickCalls (env, alerts)) st).2 = 0 :=
        processCalls_no_saved _ st
      simp only [savedCount] at h1 ih
      simp [h1, ih, List.length_cons]
      omega

/-- In a pairwise-separated list, no two members fit in one window. -/
theorem countP_le_one_of_gap (l : List Nat) (w : Nat)
    (h : l.Pairwise (fun t1 t2 => t1 + 3600 ≤ t2)) :
    l.countP (fun p => w ≤ p && p < w + 3600) ≤ 1 := by
  induction l with
  | nil => simp
  | cons x xs ih =>
      rw [List.countP_cons]
      obtain ⟨hx, hrest⟩ := List.pairwise_cons.mp h
      by_cases hPx : (w ≤ x && x < w + 3600) = true
      · have hzero : xs.countP (fun p => w ≤ p && p < w + 3600) = 0 := by
          rw [List.countP_eq_zero]
          intro p hp
          have hgap := hx p hp
          simp only [Bool.and_eq_true, decide_eq_true_eq] at hPx ⊢
          omega
        simp [hPx, hzero]
      · have := ih hrest
        simp [hPx]
        omega

/-- Claim C8: over any sentinel run, the emission times of any one alert
string are pairwise at least 3600 seconds apart — so no one-hour window
holds two emissions of the same alert — while every tick contributes exactly
one persisted sentinel.json snapshot, alert or no alert. -/
theorem c8_rate_limit_and_snapshots (ticks : List (AlertEnv × List String))
    (a : String) (w : Nat) :
    (pubTimes (sentinelRun ticks []) a).Pairwise (fun t1 t2 => t1 + 3600 ≤ t2) ∧
    (pubTimes (sentinelRun ticks []) a).countP
      (fun p => w ≤ p && p < w + 3600) ≤ 1 ∧
    savedCount (sentinelRun ticks []) = ticks.length := by
  have hpair : (pubTimes (sentinelRun ticks []) a).Pairwise
      (fun t1 t2 => t1 + 3600 ≤ t2) := by
    rw [sentinelRun_pubTimes a ticks []]
    exact (processCalls_spec a (runCalls ticks) []).2.1
  exact ⟨hpair, countP_le_one_of_gap _ w hpair, sentinelRun_savedCount ticks []⟩

/-- When the rate check passes, sendAlert records the call time and proceeds
to the delivery attempt. -/
theorem sendAlert_pass_eq (env : AlertEnv) (st : List (String × Nat)) (a : String)
    (hrate : ∀ t, alertLookup st a = some t → 3600 ≤ env.now - t) :
    sendAlert env st a
      = sendAlert.sendAlertUnlocked env (alertStore st a env.now) a := by
  unfold sendAlert
  cases hl : alertLookup st a with
  | none => rfl
  | some t =>
      have h3600 := hrate t hl
      dsimp only
      rw [if_neg (by omega)]

/-- With the bus unset, no last channel, an unparseable last channel or an
internal platform, the delivery attempt publishes nothing. -/
theorem sendAlertUnlocked_none (env : AlertEnv) (recorded : List (String × Nat))
    (alert : String)
    (hsupp : env.busSet = false ∨ env.lastChannel = "" ∨
      (parseLastChannel env.lastChannel).1 = "" ∨
      (parseLastChannel env.lastChannel).2 = "" ∨
      isInternalChannel (parseLastChannel env.lastChannel).1 = true) :
    (sendAlert.sendAlertUnlocked env recorded alert).2 = none := by
  rcases hsupp with h | h | h | h | h <;>
    by_cases hb : env.busSet = true <;>
    by_cases hc : env.lastChannel = "" <;>
    simp [sendAlert.sendAlertUnlocked, h, hb, hc]

/-- An alert seen under an hour ago is dropped at the rate check: state and
output are untouched. -/
theorem sendAlert_suppressed (env : AlertEnv) (st : List (String × Nat))
    (a : String) (t : Nat) (hl : alertLookup st a = some t)
    (hlt : env.now - t < 3600) : sendAlert env st a = (st, none) := by
  unfold sendAlert
  simp only [hl]
  rw [if_pos hlt]

/-- Claim C9: sendAlert records the emission time before it knows whether the
alert can be delivered; if delivery is then suppressed (bus unset, no last
channel, malformed last channel, or internal platform), an identical breach
before the hour is up publishes nothing either — even when the second call's
environment has an external last channel available. -/
theorem c9_suppressed_alert_starves (st : List (String × Nat)) (a : String)
    (env1 env2 : AlertEnv)
    (hrate : ∀ t, alertLookup st a = some t → 3600 ≤ env1.now - t)
    (hsupp : env1.busSet = false ∨ env1.lastChannel = "" ∨
      (parseLastChannel env1.lastChannel).1 = "" ∨
      (parseLastChannel env1.lastChannel).2 = "" ∨
      isInternalChannel (parseLastChannel env1.lastChannel).1 = true)
    (hwin : env2.now < env1.now + 3600) :
    (sendAlert env1 st a).2 = none ∧
    alertLookup (sendAlert env1 st a).1 a = some env1.now ∧
    (sendAlert env2 (sendAlert env1 st a).1 a).2 = none := by
  have h1 := sendAlert_pass_eq env1 st a hrate
  have h1n : (sendAlert env1 st a).2 = none := by
    rw [h1]
    exact sendAlertUnlocked_none env1 _ a hsupp
  have h1f : (sendAlert env1 st a).1 = alertStore st a env1.now := by
    rw [h1]
    exact sendAlertUnlocked_fst env1 _ a
  have hlook : alertLookup (sendAlert env1 st a).1 a = some env1.now := by
    rw [h1f]
    exact alertLookup_alertStore_self st a env1.now
  refine ⟨h1n, hlook, ?_⟩
  rw [sendAlert_suppressed env2 _ a env1.now hlook (by omega)]

/-- Claim C9 (witness): a RAM breach at second 0 with no bus records the
time, publishes nothing; the same breach at second 3599 — now with a bus and
the external last channel telegram:42 — still publishes nothing. -/
theorem c9_suppressed_alert_starves_witness :
    (sendAlert ⟨0, false, ""⟩ [] "RAM breach").2 = none ∧
    alertLookup (sendAlert ⟨0, false, ""⟩ [] "RAM breach").1 "RAM breach" = some 0 ∧
    (sendAlert ⟨3599, true, "telegram:42"⟩
        (sendAlert ⟨0, false, ""⟩ [] "RAM breach").1 "RAM breach").2 = none :=
  c9_suppressed_alert_starves [] "RAM breach" ⟨0, false, ""⟩ ⟨3599, true, "telegram:42"⟩
    (by intro t ht; simp [alertLookup] at ht) (Or.inl rfl) (by decide)

/-- Claim C7: the webhook handler answers 405 to any non-POST method; 401
when a secret is configured and the library comparison of the whole
Authorization header with "Bearer secret" (strings.EqualFold, passed in as
the comparator ef) rejects; 400 for an unparseable body and for an empty
content field; and otherwise 200 with body {"status":"ok"}, synthesizing
the inbound message with sender webhook:source, chat webhook:source:event
and content "[Webhook: source/event] content". -/
theorem c7_webhook_handler (ef : String → String → Bool)
    (secret method auth : String)
    (body : Option WebhookPayload) (p : WebhookPayload) :
    (method ≠ "POST" →
      handler ef secret method auth body = (⟨405, "Method not allowed"⟩, none)) ∧
    (secret ≠ "" → ef auth ("Bearer " ++ secret) = false →
      handler ef secret "POST" auth body = (⟨401, "Unauthorized"⟩, none)) ∧
    ((secret = "" ∨ ef auth ("Bearer " ++ secret) = true) →
      handler ef secret "POST" auth none = (⟨400, "Bad request"⟩, none)) ∧
    ((secret = "" ∨ ef auth ("Bearer " ++ secret) = true) → p.content = "" →
      handler ef secret "POST" auth (some p)
        = (⟨400, "content is required"⟩, none)) ∧
    ((secret = "" ∨ ef auth ("Bearer " ++ secret) = true) → p.content ≠ "" →
      handler ef secret "POST" auth (some p)
        = (⟨200, "\x7b\"status\":\"ok\"\x7d"⟩, some (processEvent p)) ∧
      (processEvent p).senderId = "webhook:" ++ p.source ∧
      (processEvent p).chatId = "webhook:" ++ p.source ++ ":" ++ p.event ∧
      (processEvent p).content
        = "[Webhook: " ++ p.source ++ "/" ++ p.event ++ "] " ++ p.content) := by
  refine ⟨?_, ?_, ?_, ?_, ?_⟩
  · intro hm
    simp [handler, hm]
  · intro hs hf
    simp [handler, hs, hf]
  · intro hok
    rcases hok with h | h <;> simp [handler, handlerBody, h]
  · intro hok hc
    rcases hok with h | h <;> simp [handler, handlerBody, h, hc]
  · intro hok hc
    rcases hok with h | h <;>
      exact ⟨by simp [handler, handlerBody, h, hc], rfl, rfl, rfl⟩

/-- Claim C7 (witness): the four rejection codes and the accepted event at
concrete all-ASCII requests with secret s3cr3t, the comparator instantiated
with asciiEqualFold (on all-ASCII strings Go's EqualFold takes the same A-Z
fast path). -/
theorem c7_webhook_handler_witness :
    handler asciiEqualFold "s3cr3t" "GET" "" none
      = (⟨405, "Method not allowed"⟩, none) ∧
    handler asciiEqualFold "s3cr3t" "POST" "Bearer wrong" none
      = (⟨401, "Unauthorized"⟩, none) ∧
    handler asciiEqualFold "s3cr3t" "POST" "bearer s3cr3t" none
      = (⟨400, "Bad request"⟩, none) ∧
    handler asciiEqualFold "s3cr3t" "POST" "bearer s3cr3t"
        (some ⟨"gh", "push", "", []⟩)
      = (⟨400, "content is required"⟩, none) ∧
    (handler asciiEqualFold "s3cr3t" "POST" "bearer s3cr3t"
        (some ⟨"gh", "push", "ok", []⟩)
        = (⟨200, "\x7b\"status\":\"ok\"\x7d"⟩,
           some (processEvent ⟨"gh", "push", "ok", []⟩)) ∧
      (processEvent ⟨"gh", "push", "ok", []⟩).senderId = "webhook:gh" ∧
      (processEvent ⟨"gh", "push", "ok", []⟩).chatId = "webhook:gh:push" ∧
      (processEvent ⟨"gh", "push", "ok", []⟩).content = "[Webhook: gh/push] ok") := by
  have h1 := c7_webhook_handler asciiEqualFold "s3cr3t" "GET" "" none
    ⟨"gh", "push", "ok", []⟩
  have h2 := c7_webhook_handler asciiEqualFold "s3cr3t" "POST" "Bearer wrong" none
    ⟨"gh", "push", "", []⟩
  have h3 := c7_webhook_handler asciiEqualFold "s3cr3t" "POST" "bearer s3cr3t" none
    ⟨"gh", "push", "", []⟩
  have h4 := c7_webhook_handler asciiEqualFold "s3cr3t" "POST" "bearer s3cr3t" none
    ⟨"gh", "push", "ok", []⟩
  exact ⟨h1.1 (by decide), h2.2.1 (by decide) (by decide),
    h3.2.2.1 (Or.inr (by decide)), h3.2.2.2.1 (Or.inr (by decide)) rfl,
    h4.2.2.2.2 (Or.inr (by decide)) (by decide)⟩

